import Mathlib

/-!
Shallow embedding of `src/index.js` of the bybit-bot repository.

The program is a webhook-driven trading bot.  Its observable state is:
the SQLite `trades` table, the orders it sends to the exchange, the
Telegram messages it sends, and its console/pino log lines.  External
behaviour (exchange responses, database I/O faults) is modelled by
explicit schedules threaded through a `World` record, consumed in
program order.  Prices are modelled as rationals (the SQLite column is
REAL), quantities as integers (the column is INTEGER).
-/

namespace BybitBot

/-- A row of the `trades` table (`CREATE TABLE trades` in index.js).
`status` defaults to "Open" on insert. -/
structure Trade where
  id : Nat
  symbol : String
  side : String
  qty : Int
  price : ℚ
  status : String
  deriving Repr, DecidableEq

/-- The ledger state: the `trades` table rows plus the AUTOINCREMENT
counter for the next `id`. -/
structure DBState where
  rows : List Trade
  nextId : Nat
  deriving Repr, DecidableEq

/-- A request sent to `bybitClient.orderCreate` (symbol, side,
orderType, qty). -/
structure OrderReq where
  symbol : String
  side : String
  orderType : String
  qty : Int
  deriving Repr, DecidableEq

/-- The order object the exchange returns on success; the code reads
`order.price` from it. -/
structure Order where
  symbol : String
  side : String
  qty : Int
  price : ℚ
  deriving Repr, DecidableEq

/-- One scheduled exchange response to an `orderCreate` call: either a
confirmed fill at a price, or a thrown error (transport failure or
rejection) with a message. -/
inductive ExchResp where
  | fill (price : ℚ)
  | fail (msg : String)
  deriving Repr, DecidableEq

/-- An element of `positionList().result` as destructured by
`closeAllPositions`: `{ id, symbol, side, size, entry_price }`. -/
structure Position where
  id : Nat
  symbol : String
  side : String
  size : Int
  entry_price : ℚ
  deriving Repr, DecidableEq

/-- The whole observable program state: the database, the remaining
exchange-response schedule, the remaining database-fault schedule
(one Bool per `db.run` call; an exhausted schedule means no fault),
and the traces of order attempts, confirmed fills, profit/loss
computations printed by `closeAllPositions`, Telegram messages and
log lines. -/
structure World where
  db : DBState
  exchangeResponses : List ExchResp
  dbFaults : List Bool
  orderAttempts : List OrderReq
  fills : List Order
  pnls : List (Nat × ℚ)
  telegrams : List String
  logs : List String
  deriving Repr, DecidableEq

/-- The state at program start: empty table, AUTOINCREMENT at 1, no
traffic yet and no scheduled faults. -/
def World.init : World :=
  { db := { rows := [], nextId := 1 }
    exchangeResponses := []
    dbFaults := []
    orderAttempts := []
    fills := []
    pnls := []
    telegrams := []
    logs := [] }

/-- `sendTelegramMessage(message)`: best effort; delivery failures are
only logged, so the model records the message. -/
def sendTelegramMessage (message : String) (w : World) : World :=
  { w with telegrams := w.telegrams ++ [message] }

/-- `bybitClient.orderCreate({symbol, side, orderType, qty})`: consumes
the next scheduled exchange response.  An exhausted schedule behaves
as a transport failure.  Every call is recorded in `orderAttempts`;
a fill is additionally recorded in `fills`. -/
def orderCreate (r : OrderReq) (w : World) : Except String Order × World :=
  let w := { w with orderAttempts := w.orderAttempts ++ [r] }
  match w.exchangeResponses with
  | [] => (Except.error "exchange unavailable", w)
  | resp :: rest =>
    let w := { w with exchangeResponses := rest }
    match resp with
    | ExchResp.fill p =>
        let o : Order := { symbol := r.symbol, side := r.side, qty := r.qty, price := p }
        (Except.ok o, { w with fills := w.fills ++ [o] })
    | ExchResp.fail m => (Except.error m, w)

/-- `insertTrade(symbol, side, qty, price)`: a fire-and-forget `db.run`
INSERT whose callback logs an error or success; the error is never
propagated to the caller.  A scheduled fault (`true` at the head of
`dbFaults`) makes the INSERT fail: no row is written and an error
line is logged.  On success a row with status "Open" and the next
AUTOINCREMENT id is appended. -/
def insertTrade (symbol side : String) (qty : Int) (price : ℚ) (w : World) : World :=
  match w.dbFaults with
  | true :: rest =>
      { w with dbFaults := rest
               logs := w.logs ++ ["Error inserting trade into database: SQLITE_ERROR"] }
  | faults =>
      let row : Trade :=
        { id := w.db.nextId, symbol := symbol, side := side, qty := qty
          price := price, status := "Open" }
      { w with dbFaults := faults.tail
               db := { rows := w.db.rows ++ [row], nextId := w.db.nextId + 1 }
               logs := w.logs ++ ["Trade inserted into database."] }

/-- `updateTradeStatus(id)`: a fire-and-forget `db.run` UPDATE setting
status to 'Closed' for the matching id; its callback logs an error or
success and the caller never sees a failure.  A SQL UPDATE matching
no row is a success touching nothing. -/
def updateTradeStatus (id : Nat) (w : World) : World :=
  match w.dbFaults with
  | true :: rest =>
      { w with dbFaults := rest
               logs := w.logs ++ ["Error updating trade status in database: SQLITE_ERROR"] }
  | faults =>
      { w with dbFaults := faults.tail
               db := { rows := w.db.rows.map (fun t =>
                         if t.id == id then { t with status := "Closed" } else t)
                       nextId := w.db.nextId }
               logs := w.logs ++ ["Trade status updated to \"Closed\" in database."] }

/-- `db.get` of `SELECT * FROM trades WHERE id = ?`: the first row with
the given id, if any. -/
def dbGet (id : Nat) (w : World) : Option Trade :=
  w.db.rows.find? (fun t => t.id == id)

/-- `calculateProfitLoss(id, sellPrice)`: looks up the trade row;
rejects when absent; else `(side === 'Buy') ? (sellPrice - price) * qty
: (price - sellPrice) * qty`. -/
def calculateProfitLoss (id : Nat) (sellPrice : ℚ) (w : World) : Except String ℚ :=
  match dbGet id w with
  | none => Except.error "Trade not found in database."
  | some row =>
      Except.ok (if row.side == "Buy" then (sellPrice - row.price) * (row.qty : ℚ)
                 else (row.price - sellPrice) * (row.qty : ℚ))

/-- `placeOrder(symbol, side, qty)`: one `orderCreate` call; on success
logs, calls `insertTrade` with the confirmed `order.price`, and
returns the order; on failure logs, sends a Telegram message, and
rethrows. -/
def placeOrder (symbol side : String) (qty : Int) (w : World) : Except String Order × World :=
  match orderCreate { symbol := symbol, side := side, orderType := "Market", qty := qty } w with
  | (Except.ok order, w) =>
      let w := { w with logs := w.logs ++
        ["Order placed: " ++ side ++ " " ++ toString qty ++ " " ++ symbol] }
      let w := insertTrade symbol side qty order.price w
      (Except.ok order, w)
  | (Except.error msg, w) =>
      let w := { w with logs := w.logs ++ ["Error placing order: " ++ msg] }
      let w := sendTelegramMessage ("Error placing order: " ++ msg) w
      (Except.error msg, w)

/-- The body of the `for (const position of positions.result)` loop in
`closeAllPositions`, for one position: side 'Buy' gets an offsetting
Sell order; side 'Sell' gets an offsetting Buy order followed by
`calculateProfitLoss(id, entry_price)` whose value is printed (the
model records it in `pnls`); any other side does nothing.  A thrown
error aborts the loop (propagated as `Except.error`). -/
def closeOne (p : Position) (w : World) : Except String Unit × World :=
  if p.side == "Buy" then
    match placeOrder p.symbol "Sell" p.size w with
    | (Except.ok _, w) => (Except.ok (), w)
    | (Except.error m, w) => (Except.error m, w)
  else if p.side == "Sell" then
    match placeOrder p.symbol "Buy" p.size w with
    | (Except.ok _, w) =>
        match calculateProfitLoss p.id p.entry_price w with
        | Except.ok pl => (Except.ok (), { w with pnls := w.pnls ++ [(p.id, pl)] })
        | Except.error m => (Except.error m, w)
    | (Except.error m, w) => (Except.error m, w)
  else
    (Except.ok (), w)

/-- The whole loop of `closeAllPositions` over the position list; the
first thrown error aborts the remaining iterations. -/
def closeList (ps : List Position) (w : World) : Except String Unit × World :=
  match ps with
  | [] => (Except.ok (), w)
  | p :: rest =>
    match closeOne p w with
    | (Except.ok _, w) => closeList rest w
    | (Except.error m, w) => (Except.error m, w)

/-- `closeAllPositions()`: obtains `positionList()` (modelled as an
explicit parameter: the exchange either returns a list of positions
or throws), runs the close loop, logs on success; on any error logs,
sends a Telegram message and rethrows. -/
def closeAllPositions (positionsResp : Except String (List Position)) (w : World) :
    Except String Unit × World :=
  match positionsResp with
  | Except.error m =>
      let w := { w with logs := w.logs ++ ["Error closing positions: " ++ m] }
      let w := sendTelegramMessage ("Error closing positions: " ++ m) w
      (Except.error m, w)
  | Except.ok ps =>
      match closeList ps w with
      | (Except.ok _, w) => (Except.ok (), { w with logs := w.logs ++ ["All open positions closed."] })
      | (Except.error m, w) =>
          let w := { w with logs := w.logs ++ ["Error closing positions: " ++ m] }
          let w := sendTelegramMessage ("Error closing positions: " ++ m) w
          (Except.error m, w)

/-- An inbound TradingView webhook request body as the handler reads
it: `data.topic`, `data.data.symbol`, `data.data.recommendation`.
`recommendation` is `Option` to model a missing field. -/
structure WebhookReq where
  topic : String
  symbol : String
  recommendation : Option String
  deriving Repr, DecidableEq

/-- `handleTradingViewWebhook(req, res)`: on topic 'notification.create',
`side = recommendation === 'BUY' ? 'Buy' : 'Sell'`; Buy places one
order of the configured quantity, anything else runs
`closeAllPositions`; success answers 200, a thrown error is caught,
logged and answered 500.  Any other topic is logged and answered 400.
Returns the HTTP status sent by `res.sendStatus`. -/
def handleTradingViewWebhook (orderQuantity : Int)
    (positionsResp : Except String (List Position)) (req : WebhookReq) (w : World) :
    Nat × World :=
  if req.topic == "notification.create" then
    let side := if req.recommendation == some "BUY" then "Buy" else "Sell"
    if side == "Buy" then
      match placeOrder req.symbol side orderQuantity w with
      | (Except.ok _, w) => (200, w)
      | (Except.error m, w) =>
          (500, { w with logs := w.logs ++ ["Error processing TradingView webhook: " ++ m] })
    else
      match closeAllPositions positionsResp w with
      | (Except.ok _, w) => (200, w)
      | (Except.error m, w) =>
          (500, { w with logs := w.logs ++ ["Error processing TradingView webhook: " ++ m] })
  else
    (400, { w with logs := w.logs ++ ["Received unexpected topic: " ++ req.topic] })

/-- One webhook delivery, with fresh external schedules installed first
(each request may see arbitrary exchange behaviour and database
faults).  This is the single public entry point of the program. -/
def webhookStep (orderQuantity : Int) (positionsResp : Except String (List Position))
    (ex : List ExchResp) (flt : List Bool) (req : WebhookReq) (w : World) : Nat × World :=
  handleTradingViewWebhook orderQuantity positionsResp req
    { w with exchangeResponses := ex, dbFaults := flt }

/-- The worlds reachable from program start by any sequence of webhook
deliveries with any external behaviour. -/
inductive Reachable : World → Prop where
  | init : Reachable World.init
  | step (w : World) (q : Int) (positionsResp : Except String (List Position))
      (ex : List ExchResp) (flt : List Bool) (req : WebhookReq) :
      Reachable w → Reachable (webhookStep q positionsResp ex flt req w).2

/-- The trades table of `w'` is that of `w` with zero or more rows of
status "Open" appended. -/
def rowsExtend (w w' : World) : Prop :=
  ∃ l, w'.db.rows = w.db.rows ++ l ∧ ∀ t ∈ l, t.status = "Open"

/-- Every row of the trades table has status "Open". -/
def allOpen (w : World) : Prop := ∀ t ∈ w.db.rows, t.status = "Open"

/-- The offsetting close order the loop issues for one position: the
opposite side, same symbol, same size, market order. -/
def closeReq (p : Position) : OrderReq :=
  { symbol := p.symbol, side := if p.side == "Buy" then "Sell" else "Buy"
    orderType := "Market", qty := p.size }

/-! ### Concrete scenario fixtures -/

/-- A BUY webhook request for BTCUSD. -/
def buyReq : WebhookReq := ⟨"notification.create", "BTCUSD", some "BUY"⟩

/-- First delivery of the BUY signal against a fresh world whose
exchange fills at 100. -/
def c1Once : Nat × World :=
  webhookStep 1 (Except.ok []) [ExchResp.fill 100] [] buyReq World.init

/-- Second (duplicate) delivery of the very same BUY signal. -/
def c1Twice : Nat × World :=
  webhookStep 1 (Except.ok []) [ExchResp.fill 100] [] buyReq c1Once.2

/-- A world whose exchange fills the next order at 100 and whose next
database write fails. -/
def c2World : World :=
  { World.init with exchangeResponses := [ExchResp.fill 100], dbFaults := [true] }

/-- Ledger holding the open short trade matching position id 2, with
two fills scheduled for the two close orders. -/
def c3World : World :=
  { World.init with
    db := { rows := [⟨2, "ETHUSD", "Sell", 2, 200, "Open"⟩], nextId := 3 }
    exchangeResponses := [ExchResp.fill 100, ExchResp.fill 200] }

/-- The spec scenario's two open positions: BTCUSD/Buy/1, ETHUSD/Sell/2. -/
def c3Positions : List Position :=
  [⟨1, "BTCUSD", "Buy", 1, 100⟩, ⟨2, "ETHUSD", "Sell", 2, 200⟩]

/-- A SELL webhook request. -/
def sellReq : WebhookReq := ⟨"notification.create", "BTCUSD", some "SELL"⟩

/-- Ledger with one long trade: entry 100, qty 2. -/
def c4BuyWorld : World :=
  { World.init with db := { rows := [⟨1, "BTCUSD", "Buy", 2, 100, "Open"⟩], nextId := 2 } }

/-- Ledger with one short trade: entry 100, qty 2. -/
def c4SellWorld : World :=
  { World.init with db := { rows := [⟨1, "BTCUSD", "Sell", 2, 100, "Open"⟩], nextId := 2 } }

/-- An exchange-reported short position whose ledger row stores the
same price as the exchange-reported entry price. -/
def c6Pos : Position := ⟨2, "ETHUSD", "Sell", 2, 200⟩

/-- World matching `c6Pos`: ledger row id 2 at price 200, one fill
scheduled for the close order. -/
def c6World : World :=
  { World.init with
    db := { rows := [⟨2, "ETHUSD", "Sell", 2, 200, "Open"⟩], nextId := 3 }
    exchangeResponses := [ExchResp.fill 210] }

/-- A recognized-topic request with an unrecognized recommendation. -/
def c7Req : WebhookReq := ⟨"notification.create", "BTCUSD", some "HOLD"⟩

/-- One open long position and an exchange ready to fill one order. -/
def c7World : World := { World.init with exchangeResponses := [ExchResp.fill 100] }

/-- Position list for the C7 scenario. -/
def c7Positions : List Position := [⟨1, "BTCUSD", "Buy", 1, 100⟩]

/-- Ledger whose only trade (id 1) is already Closed. -/
def c8World : World :=
  { World.init with db := { rows := [⟨1, "BTCUSD", "Buy", 1, 100, "Closed"⟩], nextId := 2 } }

/-- A world whose exchange throws a transport error on the first order
attempt but would fill a second attempt at 100. -/
def c10World : World :=
  { World.init with exchangeResponses := [ExchResp.fail "timeout", ExchResp.fill 100] }

/-! ### Helper lemmas -/

theorem find?_append_some {α : Type} (p : α → Bool) (l₁ l₂ : List α) (a : α)
    (h : l₁.find? p = some a) : (l₁ ++ l₂).find? p = some a := by
  induction l₁ with
  | nil => simp [List.find?] at h
  | cons x xs ih =>
    rw [List.cons_append]
    by_cases hp : p x
    · rw [List.find?_cons_of_pos _ hp] at h
      rw [List.find?_cons_of_pos _ hp]
      exact h
    · rw [List.find?_cons_of_neg _ (by simpa using hp)] at h
      rw [List.find?_cons_of_neg _ (by simpa using hp)]
      exact ih h

theorem rowsExtend_of_db_rows_eq {w w' : World} (h : w'.db.rows = w.db.rows) :
    rowsExtend w w' := ⟨[], by simp [h], by simp⟩

theorem rowsExtend_trans {w w' w'' : World} (h : rowsExtend w w') (h' : rowsExtend w' w'') :
    rowsExtend w w'' := by
  obtain ⟨l, hl, ho⟩ := h
  obtain ⟨l', hl', ho'⟩ := h'
  refine ⟨l ++ l', by simp [hl', hl], ?_⟩
  intro t ht
  rcases List.mem_append.mp ht with h1 | h2
  · exact ho t h1
  · exact ho' t h2

theorem allOpen_of_rowsExtend {w w' : World} (h : rowsExtend w w') (ho : allOpen w) :
    allOpen w' := by
  obtain ⟨l, hl, hlo⟩ := h
  intro t ht
  rw [hl] at ht
  rcases List.mem_append.mp ht with h1 | h2
  · exact ho t h1
  · exact hlo t h2

theorem dbGet_of_rowsExtend {w w' : World} {id : Nat} {t : Trade}
    (h : rowsExtend w w') (hg : dbGet id w = some t) : dbGet id w' = some t := by
  obtain ⟨l, hl, -⟩ := h
  unfold dbGet at hg ⊢
  rw [hl]
  exact find?_append_some _ _ _ _ hg

theorem rowsExtend_insertTrade (s sd : String) (q : Int) (p : ℚ) (w : World) :
    rowsExtend w (insertTrade s sd q p w) := by
  cases h : w.dbFaults with
  | nil =>
    exact ⟨[⟨w.db.nextId, s, sd, q, p, "Open"⟩], by simp [insertTrade, h], by simp⟩
  | cons b rest =>
    cases b
    · exact ⟨[⟨w.db.nextId, s, sd, q, p, "Open"⟩], by simp [insertTrade, h], by simp⟩
    · exact rowsExtend_of_db_rows_eq (by simp [insertTrade, h])

theorem orderCreate_db (r : OrderReq) (w : World) : ((orderCreate r w).2).db = w.db := by
  cases h : w.exchangeResponses with
  | nil => simp [orderCreate, h]
  | cons resp rest => cases resp <;> simp [orderCreate, h]

theorem orderCreate_pnls (r : OrderReq) (w : World) :
    ((orderCreate r w).2).pnls = w.pnls := by
  cases h : w.exchangeResponses with
  | nil => simp [orderCreate, h]
  | cons resp rest => cases resp <;> simp [orderCreate, h]

theorem insertTrade_pnls (s sd : String) (q : Int) (p : ℚ) (w : World) :
    (insertTrade s sd q p w).pnls = w.pnls := by
  cases h : w.dbFaults with
  | nil => simp [insertTrade, h]
  | cons b rest => cases b <;> simp [insertTrade, h]

/-- Full behaviour of `placeOrder` when the next scheduled exchange
response is a fill and no database fault is scheduled. -/
theorem placeOrder_fill (s sd : String) (n : Int) (q : ℚ) (rest : List ExchResp) (w : World)
    (hE : w.exchangeResponses = ExchResp.fill q :: rest) (hD : w.dbFaults = []) :
    placeOrder s sd n w =
      (Except.ok { symbol := s, side := sd, qty := n, price := q },
       { w with
         exchangeResponses := rest
         orderAttempts := w.orderAttempts ++
           [{ symbol := s, side := sd, orderType := "Market", qty := n }]
         fills := w.fills ++ [{ symbol := s, side := sd, qty := n, price := q }]
         db := { rows := w.db.rows ++
                   [{ id := w.db.nextId, symbol := s, side := sd, qty := n, price := q,
                      status := "Open" }],
                 nextId := w.db.nextId + 1 }
         logs := w.logs ++ ["Order placed: " ++ sd ++ " " ++ toString n ++ " " ++ s,
                            "Trade inserted into database."] }) := by
  simp [placeOrder, orderCreate, insertTrade, hE, hD]

/-- Full behaviour of `placeOrder` when the next scheduled exchange
response is a thrown error: nothing is written to the ledger, the
error is logged, sent to Telegram and rethrown. -/
theorem placeOrder_fail (s sd : String) (n : Int) (m : String) (rest : List ExchResp)
    (w : World) (hE : w.exchangeResponses = ExchResp.fail m :: rest) :
    placeOrder s sd n w =
      (Except.error m,
       { w with
         exchangeResponses := rest
         orderAttempts := w.orderAttempts ++
           [{ symbol := s, side := sd, orderType := "Market", qty := n }]
         logs := w.logs ++ ["Error placing order: " ++ m]
         telegrams := w.telegrams ++ ["Error placing order: " ++ m] }) := by
  simp [placeOrder, orderCreate, sendTelegramMessage, hE]

theorem placeOrder_pnls (s sd : String) (n : Int) (w : World) :
    ((placeOrder s sd n w).2).pnls = w.pnls := by
  unfold placeOrder
  cases ho : orderCreate { symbol := s, side := sd, orderType := "Market", qty := n } w with
  | mk res w1 =>
    have h1 : w1.pnls = w.pnls := by
      have := orderCreate_pnls { symbol := s, side := sd, orderType := "Market", qty := n } w
      rw [ho] at this
      exact this
    cases res with
    | ok order => simpa [insertTrade_pnls] using h1
    | error m => simpa [sendTelegramMessage] using h1

theorem rowsExtend_placeOrder (s sd : String) (n : Int) (w : World) :
    rowsExtend w ((placeOrder s sd n w).2) := by
  unfold placeOrder
  cases ho : orderCreate { symbol := s, side := sd, orderType := "Market", qty := n } w with
  | mk res w1 =>
    have h1 : w1.db = w.db := by
      have := orderCreate_db { symbol := s, side := sd, orderType := "Market", qty := n } w
      rw [ho] at this
      exact this
    cases res with
    | ok order =>
      have hstep : rowsExtend w w1 := rowsExtend_of_db_rows_eq (by rw [h1])
      refine rowsExtend_trans hstep ?_
      simpa using rowsExtend_insertTrade s sd n order.price
        { w1 with logs := w1.logs ++ ["Order placed: " ++ sd ++ " " ++ toString n ++ " " ++ s] }
    | error m => exact rowsExtend_of_db_rows_eq (by simp [sendTelegramMessage, h1])

theorem dbGet_isSome_of_rowsExtend {w w' : World} (h : rowsExtend w w') {id : Nat}
    (hs : (dbGet id w).isSome) : (dbGet id w').isSome := by
  obtain ⟨t, ht⟩ := Option.isSome_iff_exists.mp hs
  rw [dbGet_of_rowsExtend h ht]
  rfl

theorem rowsExtend_closeOne (p : Position) (w : World) :
    rowsExtend w ((closeOne p w).2) := by
  by_cases hb : p.side = "Buy"
  · have h := rowsExtend_placeOrder p.symbol "Sell" p.size w
    cases hp : placeOrder p.symbol "Sell" p.size w with
    | mk res w1 =>
      rw [hp] at h
      cases res with
      | ok o => simpa [closeOne, hb, hp] using h
      | error m => simpa [closeOne, hb, hp] using h
  · by_cases hs : p.side = "Sell"
    · have h := rowsExtend_placeOrder p.symbol "Buy" p.size w
      cases hp : placeOrder p.symbol "Buy" p.size w with
      | mk res w1 =>
        rw [hp] at h
        cases res with
        | error m => simpa [closeOne, hb, hs, hp] using h
        | ok o =>
          cases hc : calculateProfitLoss p.id p.entry_price w1 with
          | ok pl =>
            refine rowsExtend_trans h ?_
            exact rowsExtend_of_db_rows_eq (by simp [closeOne, hb, hs, hp, hc])
          | error m => simpa [closeOne, hb, hs, hp, hc] using h
    · exact rowsExtend_of_db_rows_eq (by simp [closeOne, hb, hs])

theorem closeList_cons_ok (p : Position) (rest : List Position) (w : World)
    (h : (closeOne p w).1 = Except.ok ()) :
    closeList (p :: rest) w = closeList rest ((closeOne p w).2) := by
  cases hc : closeOne p w with
  | mk res w1 =>
    rw [hc] at h
    cases res with
    | ok u => simp [closeList, hc]
    | error m => simp at h

theorem rowsExtend_closeList (ps : List Position) :
    ∀ w : World, rowsExtend w ((closeList ps w).2) := by
  induction ps with
  | nil => intro w; exact rowsExtend_of_db_rows_eq rfl
  | cons p rest ih =>
    intro w
    have h1 := rowsExtend_closeOne p w
    cases hc : closeOne p w with
    | mk res w1 =>
      rw [hc] at h1
      cases res with
      | ok u =>
        rw [show closeList (p :: rest) w = closeList rest w1 by simp [closeList, hc]]
        exact rowsExtend_trans h1 (ih w1)
      | error m => simpa [closeList, hc] using h1

theorem closeAllPositions_ok (ps : List Position) (w : World)
    (h : (closeList ps w).1 = Except.ok ()) :
    closeAllPositions (Except.ok ps) w =
      (Except.ok (),
       { (closeList ps w).2 with
         logs := ((closeList ps w).2).logs ++ ["All open positions closed."] }) := by
  cases hc : closeList ps w with
  | mk res w1 =>
    rw [hc] at h
    cases res with
    | ok u => simp [closeAllPositions, hc]
    | error m => simp at h

theorem rowsExtend_closeAllPositions (pr : Except String (List Position)) (w : World) :
    rowsExtend w ((closeAllPositions pr w).2) := by
  cases pr with
  | error m => exact rowsExtend_of_db_rows_eq (by simp [closeAllPositions, sendTelegramMessage])
  | ok ps =>
    have h1 := rowsExtend_closeList ps w
    cases hc : closeList ps w with
    | mk res w1 =>
      rw [hc] at h1
      cases res with
      | ok u =>
        refine rowsExtend_trans h1 ?_
        exact rowsExtend_of_db_rows_eq (by simp [closeAllPositions, hc])
      | error m => simpa [closeAllPositions, hc, sendTelegramMessage] using h1

theorem rowsExtend_handle (q : Int) (pr : Except String (List Position))
    (req : WebhookReq) (w : World) :
    rowsExtend w ((handleTradingViewWebhook q pr req w).2) := by
  by_cases ht : req.topic = "notification.create"
  · by_cases hr : req.recommendation = some "BUY"
    · have h := rowsExtend_placeOrder req.symbol "Buy" q w
      cases hp : placeOrder req.symbol "Buy" q w with
      | mk res w1 =>
        rw [hp] at h
        cases res with
        | ok o => simpa [handleTradingViewWebhook, ht, hr, hp] using h
        | error m => simpa [handleTradingViewWebhook, ht, hr, hp] using h
    · have h := rowsExtend_closeAllPositions pr w
      cases hp : closeAllPositions pr w with
      | mk res w1 =>
        rw [hp] at h
        cases res with
        | ok o => simpa [handleTradingViewWebhook, ht, hr, hp] using h
        | error m => simpa [handleTradingViewWebhook, ht, hr, hp] using h
  · exact rowsExtend_of_db_rows_eq (by simp [handleTradingViewWebhook, ht])

theorem rowsExtend_webhookStep (q : Int) (pr : Except String (List Position))
    (ex : List ExchResp) (flt : List Bool) (req : WebhookReq) (w : World) :
    rowsExtend w ((webhookStep q pr ex flt req w).2) := by
  have hset : rowsExtend w { w with exchangeResponses := ex, dbFaults := flt } :=
    rowsExtend_of_db_rows_eq rfl
  exact rowsExtend_trans hset
    (rowsExtend_handle q pr req { w with exchangeResponses := ex, dbFaults := flt })

/-- One loop iteration on a side=Buy position under a scheduled fill:
one Sell close order of equal size, no profit/loss computation. -/
theorem closeOne_buy (p : Position) (w : World) (q : ℚ) (es : List ExchResp)
    (hBuy : p.side = "Buy") (hE : w.exchangeResponses = ExchResp.fill q :: es)
    (hD : w.dbFaults = []) :
    (closeOne p w).1 = Except.ok () ∧
    ((closeOne p w).2).orderAttempts = w.orderAttempts ++ [closeReq p] ∧
    ((closeOne p w).2).fills.length = w.fills.length + 1 ∧
    ((closeOne p w).2).pnls = w.pnls ∧
    ((closeOne p w).2).exchangeResponses = es ∧
    ((closeOne p w).2).dbFaults = [] := by
  have hP := placeOrder_fill p.symbol "Sell" p.size q es w hE hD
  refine ⟨?_, ?_, ?_, ?_, ?_, ?_⟩ <;> simp [closeOne, hBuy, hP, closeReq, hD]

/-- One loop iteration on a side=Sell position under a scheduled fill,
when the position's id is present in the trades table: one Buy close
order of equal size, and one profit/loss value computed by
`calculateProfitLoss(id, entry_price)` over the stored row. -/
theorem closeOne_sell (p : Position) (w : World) (q : ℚ) (es : List ExchResp) (t : Trade)
    (hSell : p.side = "Sell") (hE : w.exchangeResponses = ExchResp.fill q :: es)
    (hD : w.dbFaults = []) (hGet : dbGet p.id w = some t) :
    (closeOne p w).1 = Except.ok () ∧
    ((closeOne p w).2).orderAttempts = w.orderAttempts ++ [closeReq p] ∧
    ((closeOne p w).2).fills.length = w.fills.length + 1 ∧
    ((closeOne p w).2).pnls = w.pnls ++
      [(p.id, if t.side == "Buy" then (p.entry_price - t.price) * (t.qty : ℚ)
              else (t.price - p.entry_price) * (t.qty : ℚ))] ∧
    ((closeOne p w).2).exchangeResponses = es ∧
    ((closeOne p w).2).dbFaults = [] := by
  have hP := placeOrder_fill p.symbol "Buy" p.size q es w hE hD
  have hGet' : List.find? (fun r => r.id == p.id) w.db.rows = some t := hGet
  refine ⟨?_, ?_, ?_, ?_, ?_, ?_⟩ <;>
    simp [closeOne, hSell, hP, closeReq, calculateProfitLoss, dbGet, hGet', Option.or, hD]

/-- The close loop over a position list, under an all-fills exchange
schedule that is long enough, no database faults, and a ledger row
for every side=Sell position: it succeeds, issues exactly one
offsetting close order per position, fills all of them, and computes
exactly one profit/loss value per side=Sell position. -/
theorem closeList_spec (ps : List Position) :
    ∀ w : World,
    (∀ r ∈ w.exchangeResponses, ∃ q, r = ExchResp.fill q) →
    ps.length ≤ w.exchangeResponses.length →
    w.dbFaults = [] →
    (∀ p ∈ ps, p.side = "Sell" → (dbGet p.id w).isSome) →
    (∀ p ∈ ps, p.side = "Buy" ∨ p.side = "Sell") →
    (closeList ps w).1 = Except.ok () ∧
    ((closeList ps w).2).orderAttempts = w.orderAttempts ++ ps.map closeReq ∧
    ((closeList ps w).2).fills.length = w.fills.length + ps.length ∧
    ((closeList ps w).2).pnls.length = w.pnls.length +
      (ps.filter (fun p => p.side == "Sell")).length := by
  induction ps with
  | nil => intro w _ _ _ _ _; simp [closeList]
  | cons p rest ih =>
    intro w hF hL hD hS hB
    obtain ⟨r, es, hE⟩ : ∃ r es, w.exchangeResponses = r :: es := by
      cases hcc : w.exchangeResponses with
      | nil => rw [hcc] at hL; simp at hL
      | cons a b => exact ⟨a, b, rfl⟩
    obtain ⟨q, rfl⟩ := hF r (by rw [hE]; exact List.mem_cons_self _ _)
    have hExt := rowsExtend_closeOne p w
    have hLen : rest.length ≤ es.length := by
      rw [hE] at hL
      simp [List.length_cons] at hL
      omega
    have hB' : ∀ p' ∈ rest, p'.side = "Buy" ∨ p'.side = "Sell" :=
      fun p' hp' => hB p' (List.mem_cons_of_mem _ hp')
    rcases hB p (List.mem_cons_self _ _) with hBuy | hSell
    · obtain ⟨h1, hA, hFl, hPn, hEx, hDf⟩ := closeOne_buy p w q es hBuy hE hD
      rw [closeList_cons_ok p rest w h1]
      have hF' : ∀ r' ∈ ((closeOne p w).2).exchangeResponses, ∃ q', r' = ExchResp.fill q' := by
        intro r' hr'
        rw [hEx] at hr'
        exact hF r' (by rw [hE]; exact List.mem_cons_of_mem _ hr')
      have hL' : rest.length ≤ ((closeOne p w).2).exchangeResponses.length := by
        rw [hEx]; exact hLen
      have hS' : ∀ p' ∈ rest, p'.side = "Sell" → (dbGet p'.id ((closeOne p w).2)).isSome := by
        intro p' hp' hps'
        exact dbGet_isSome_of_rowsExtend hExt (hS p' (List.mem_cons_of_mem _ hp') hps')
      obtain ⟨ih1, ih2, ih3, ih4⟩ := ih ((closeOne p w).2) hF' hL' hDf hS' hB'
      refine ⟨ih1, ?_, ?_, ?_⟩
      · rw [ih2, hA]; simp
      · rw [ih3, hFl, List.length_cons]; omega
      · rw [ih4, hPn]
        simp [List.filter_cons, hBuy]
    · have hsome := hS p (List.mem_cons_self _ _) hSell
      obtain ⟨t, ht⟩ := Option.isSome_iff_exists.mp hsome
      obtain ⟨h1, hA, hFl, hPn, hEx, hDf⟩ := closeOne_sell p w q es t hSell hE hD ht
      rw [closeList_cons_ok p rest w h1]
      have hF' : ∀ r' ∈ ((closeOne p w).2).exchangeResponses, ∃ q', r' = ExchResp.fill q' := by
        intro r' hr'
        rw [hEx] at hr'
        exact hF r' (by rw [hE]; exact List.mem_cons_of_mem _ hr')
      have hL' : rest.length ≤ ((closeOne p w).2).exchangeResponses.length := by
        rw [hEx]; exact hLen
      have hS' : ∀ p' ∈ rest, p'.side = "Sell" → (dbGet p'.id ((closeOne p w).2)).isSome := by
        intro p' hp' hps'
        exact dbGet_isSome_of_rowsExtend hExt (hS p' (List.mem_cons_of_mem _ hp') hps')
      obtain ⟨ih1, ih2, ih3, ih4⟩ := ih ((closeOne p w).2) hF' hL' hDf hS' hB'
      refine ⟨ih1, ?_, ?_, ?_⟩
      · rw [ih2, hA]; simp
      · rw [ih3, hFl, List.length_cons]; omega
      · rw [ih4, hPn]
        simp [List.filter_cons, hSell, List.length_append, List.length_cons]
        omega

theorem handle_sell_ok (q : Int) (pr : Except String (List Position)) (req : WebhookReq)
    (w : World) (ht : req.topic = "notification.create")
    (hr : req.recommendation ≠ some "BUY")
    (hok : (closeAllPositions pr w).1 = Except.ok ()) :
    handleTradingViewWebhook q pr req w = (200, (closeAllPositions pr w).2) := by
  cases hc : closeAllPositions pr w with
  | mk res w1 =>
    rw [hc] at hok
    cases res with
    | ok u => simp [handleTradingViewWebhook, ht, beq_iff_eq, hr, hc]
    | error m => simp at hok

theorem map_closed_noop {l : List Trade} {id : Nat} (h : ∀ t ∈ l, t.id ≠ id) :
    l.map (fun t => if t.id == id then { t with status := "Closed" } else t) = l := by
  induction l with
  | nil => rfl
  | cons x xs ih =>
    rw [List.map_cons]
    have hx : x.id ≠ id := h x (List.mem_cons_self _ _)
    rw [if_neg (by simp [hx])]
    rw [ih (fun t ht => h t (List.mem_cons_of_mem _ ht))]

/-! ### Claims -/

/-- Claim C1 (code bug in the source): the spec requires idempotency —
the same signal delivered twice must place exactly one order — but
the webhook handler has no idempotency key: delivering the identical
BUY signal twice places two orders and inserts two ledger rows, each
delivery answered 200. -/
theorem C1_duplicate_delivery_places_two_orders :
    c1Once.1 = 200 ∧ c1Twice.1 = 200 ∧
    (c1Twice.2).fills.length = 2 ∧
    (c1Twice.2).orderAttempts.length = 2 ∧
    (c1Twice.2).db.rows.length = 2 := by
  decide

/-- Claim C2 (code bug in the source): after a confirmed fill, a ledger
insert failure is only written to the console log; `placeOrder` still
returns the order as a success, no trade row is recorded, and the
notifier is never invoked — the error is swallowed, not escalated. -/
theorem C2_insert_error_swallowed :
    (placeOrder "BTCUSD" "Buy" 1 c2World).1 =
      Except.ok ⟨"BTCUSD", "Buy", 1, 100⟩ ∧
    ((placeOrder "BTCUSD" "Buy" 1 c2World).2).db.rows = [] ∧
    ((placeOrder "BTCUSD" "Buy" 1 c2World).2).telegrams = [] ∧
    "Error inserting trade into database: SQLITE_ERROR" ∈
      ((placeOrder "BTCUSD" "Buy" 1 c2World).2).logs := by
  refine ⟨rfl, rfl, rfl, ?_⟩
  decide

/-- Claim C3 counterexample: in the spec scenario — SELL webhook with two
open positions (BTCUSD/Buy/1, ETHUSD/Sell/2) — the code places two
close orders and answers 200, but performs only ONE profit/loss
computation (for the Sell-side position), not one per closed
position. -/
theorem C3_counterexample :
    (handleTradingViewWebhook 1 (Except.ok c3Positions) sellReq c3World).1 = 200 ∧
    ((handleTradingViewWebhook 1 (Except.ok c3Positions) sellReq c3World).2).fills.length = 2 ∧
    ((handleTradingViewWebhook 1 (Except.ok c3Positions) sellReq c3World).2).pnls.length = 1 ∧
    ¬ ((handleTradingViewWebhook 1 (Except.ok c3Positions) sellReq c3World).2).pnls.length = 2 := by
  decide

/-- Claim C3 (amended): one invocation of the close-all flow places
exactly one offsetting close order per position (a Sell of equal size
for each side=Buy position, a Buy of equal size for each side=Sell
position) and the webhook answers 200, but profit/loss is computed
only once per side=Sell position — side=Buy positions get no
profit/loss computation. -/
theorem C3_closeAll_amended (q : Int) (ps : List Position) (req : WebhookReq) (w : World)
    (ht : req.topic = "notification.create") (hr : req.recommendation ≠ some "BUY")
    (hF : ∀ r ∈ w.exchangeResponses, ∃ p, r = ExchResp.fill p)
    (hL : ps.length ≤ w.exchangeResponses.length)
    (hD : w.dbFaults = [])
    (hS : ∀ p ∈ ps, p.side = "Sell" → (dbGet p.id w).isSome)
    (hB : ∀ p ∈ ps, p.side = "Buy" ∨ p.side = "Sell") :
    (handleTradingViewWebhook q (Except.ok ps) req w).1 = 200 ∧
    ((handleTradingViewWebhook q (Except.ok ps) req w).2).orderAttempts =
      w.orderAttempts ++ ps.map closeReq ∧
    ((handleTradingViewWebhook q (Except.ok ps) req w).2).fills.length =
      w.fills.length + ps.length ∧
    ((handleTradingViewWebhook q (Except.ok ps) req w).2).pnls.length =
      w.pnls.length + (ps.filter (fun p => p.side == "Sell")).length := by
  obtain ⟨h1, h2, h3, h4⟩ := closeList_spec ps w hF hL hD hS hB
  have hca := closeAllPositions_ok ps w h1
  have hh := handle_sell_ok q (Except.ok ps) req w ht hr (by rw [hca])
  rw [hh, hca]
  exact ⟨rfl, by simpa using h2, by simpa using h3, by simpa using h4⟩

/-- Claim C3 amended witness: the two-position scenario, through the
amended theorem: two close orders, 200, one profit/loss value. -/
theorem C3_closeAll_amended_witness :
    (handleTradingViewWebhook 1 (Except.ok c3Positions) sellReq c3World).1 = 200 ∧
    ((handleTradingViewWebhook 1 (Except.ok c3Positions) sellReq c3World).2).fills.length = 2 ∧
    ((handleTradingViewWebhook 1 (Except.ok c3Positions) sellReq c3World).2).pnls.length = 1 := by
  have h := C3_closeAll_amended 1 c3Positions sellReq c3World rfl (by decide)
    (by
      intro r hr
      have he : c3World.exchangeResponses = [ExchResp.fill 100, ExchResp.fill 200] := rfl
      rw [he] at hr
      simp only [List.mem_cons, List.not_mem_nil, or_false] at hr
      rcases hr with rfl | rfl
      · exact ⟨100, rfl⟩
      · exact ⟨200, rfl⟩)
    (by decide) rfl (by decide) (by decide)
  exact ⟨h.1, by rw [h.2.2.1]; decide, by rw [h.2.2.2]; decide⟩

/-- Claim C4: for a trade row with entry price e, exit price x and
quantity q, `calculateProfitLoss` returns (x - e) * q when the stored
side is Buy and (e - x) * q when it is Sell. -/
theorem C4_profitLoss_formula (w : World) (id : Nat) (sellPrice : ℚ) (row : Trade)
    (h : dbGet id w = some row) :
    (row.side = "Buy" →
      calculateProfitLoss id sellPrice w =
        Except.ok ((sellPrice - row.price) * (row.qty : ℚ))) ∧
    (row.side = "Sell" →
      calculateProfitLoss id sellPrice w =
        Except.ok ((row.price - sellPrice) * (row.qty : ℚ))) := by
  constructor <;> intro hs <;> simp [calculateProfitLoss, h, hs]

/-- Claim C4 witness: Buy entry 100 exit 110 qty 2 gives +20; Sell entry
100 exit 90 qty 2 gives +20; Sell entry 100 exit 110 qty 2 gives -20. -/
theorem C4_profitLoss_formula_witness :
    calculateProfitLoss 1 110 c4BuyWorld = Except.ok 20 ∧
    calculateProfitLoss 1 90 c4SellWorld = Except.ok 20 ∧
    calculateProfitLoss 1 110 c4SellWorld = Except.ok (-20) := by
  refine ⟨?_, ?_, ?_⟩
  · have h := (C4_profitLoss_formula c4BuyWorld 1 110 ⟨1, "BTCUSD", "Buy", 2, 100, "Open"⟩
      rfl).1 rfl
    rw [h]; norm_num
  · have h := (C4_profitLoss_formula c4SellWorld 1 90 ⟨1, "BTCUSD", "Sell", 2, 100, "Open"⟩
      rfl).2 rfl
    rw [h]; norm_num
  · have h := (C4_profitLoss_formula c4SellWorld 1 110 ⟨1, "BTCUSD", "Sell", 2, 100, "Open"⟩
      rfl).2 rfl
    rw [h]; norm_num

/-- Claim C5: in every reachable state of the program every trade row
has status "Open": rows are inserted with the default status "Open"
and no webhook-reachable code path invokes `updateTradeStatus`, so no
trade ever becomes "Closed". -/
theorem C5_ledger_rows_always_open (w : World) (h : Reachable w) : allOpen w := by
  induction h with
  | init => intro t ht; simp [World.init] at ht
  | step w q pr ex flt req hw ih =>
    exact allOpen_of_rowsExtend (rowsExtend_webhookStep q pr ex flt req w) ih

/-- Claim C5 witness: the state after one processed BUY webhook is
reachable and all its rows are "Open". -/
theorem C5_ledger_rows_always_open_witness :
    allOpen ((webhookStep 1 (Except.ok []) [ExchResp.fill 100] [] buyReq World.init).2) :=
  C5_ledger_rows_always_open _
    (Reachable.step World.init 1 (Except.ok []) [ExchResp.fill 100] [] buyReq Reachable.init)

/-- Claim C6: in the close-all flow profit/loss is computed only for
positions whose exchange-reported side is "Sell", and the exit price
passed to `calculateProfitLoss` is the position's own
`entry_price`; hence when the ledger row's stored price equals that
entry price the computed profit/loss is exactly 0. -/
theorem C6_pnl_only_sell_and_zero (p : Position) (w : World) :
    (p.side ≠ "Sell" → ((closeOne p w).2).pnls = w.pnls) ∧
    (∀ q es t, p.side = "Sell" → w.exchangeResponses = ExchResp.fill q :: es →
      w.dbFaults = [] → dbGet p.id w = some t → t.price = p.entry_price →
      (closeOne p w).1 = Except.ok () ∧
      ((closeOne p w).2).pnls = w.pnls ++ [(p.id, 0)]) := by
  constructor
  · intro hns
    by_cases hb : p.side = "Buy"
    · have h := placeOrder_pnls p.symbol "Sell" p.size w
      cases hp : placeOrder p.symbol "Sell" p.size w with
      | mk res w1 =>
        rw [hp] at h
        cases res with
        | ok o => simpa [closeOne, hb, hp] using h
        | error m => simpa [closeOne, hb, hp] using h
    · simp [closeOne, hb, hns]
  · intro q es t hSell hE hD hGet hPrice
    obtain ⟨h1, -, -, hPn, -, -⟩ := closeOne_sell p w q es t hSell hE hD hGet
    refine ⟨h1, ?_⟩
    rw [hPn, hPrice]
    simp

/-- Claim C6 witness: for the short position ETHUSD/Sell/2 with
entry_price 200 and stored ledger price 200, the loop iteration
computes profit/loss 0 (the close order's fill price 210 is
ignored). -/
theorem C6_pnl_only_sell_and_zero_witness :
    (closeOne c6Pos c6World).1 = Except.ok () ∧
    ((closeOne c6Pos c6World).2).pnls = c6World.pnls ++ [(2, 0)] :=
  (C6_pnl_only_sell_and_zero c6Pos c6World).2 210 [] ⟨2, "ETHUSD", "Sell", 2, 200, "Open"⟩
    rfl rfl rfl rfl rfl

/-- Claim C7 (code bug in the source): a recognized-topic signal whose
recommendation is unrecognized ("HOLD") is not rejected: the handler
maps every non-BUY recommendation to Sell, dispatches the close-all
flow — here placing a close order — and answers 200 instead of a
client error. -/
theorem C7_invalid_signal_dispatched :
    (handleTradingViewWebhook 1 (Except.ok c7Positions) c7Req c7World).1 = 200 ∧
    ((handleTradingViewWebhook 1 (Except.ok c7Positions) c7Req c7World).2).fills.length = 1 ∧
    ¬ (handleTradingViewWebhook 1 (Except.ok c7Positions) c7Req c7World).1 = 400 := by
  decide

/-- Claim C8 counterexample: closing the nonexistent trade id 5 and
re-closing the already-Closed trade id 1 both leave the table
unchanged and log the success line — there is no NotFoundError and no
AlreadyClosedError, only silent success. -/
theorem C8_counterexample :
    (updateTradeStatus 5 c8World).db = c8World.db ∧
    (updateTradeStatus 5 c8World).logs =
      c8World.logs ++ ["Trade status updated to \"Closed\" in database."] ∧
    (updateTradeStatus 1 c8World).db = c8World.db ∧
    (updateTradeStatus 1 c8World).logs =
      c8World.logs ++ ["Trade status updated to \"Closed\" in database."] := by
  decide

/-- Claim C8 (amended): `updateTradeStatus` is monotonic — a row that is
Closed stays Closed under any further call — but a close of an id
with no matching row, like any repeat close, is a silent success:
the table is unchanged and the success line is logged; the caller is
never given an error. -/
theorem C8_markClosed_amended (w : World) (id : Nat) :
    (∀ t ∈ w.db.rows, t.status = "Closed" →
      ∃ t', t' ∈ (updateTradeStatus id w).db.rows ∧ t'.id = t.id ∧ t'.status = "Closed") ∧
    (w.dbFaults = [] → (∀ t ∈ w.db.rows, t.id ≠ id) →
      (updateTradeStatus id w).db = w.db ∧
      (updateTradeStatus id w).logs =
        w.logs ++ ["Trade status updated to \"Closed\" in database."]) := by
  constructor
  · intro t ht hc
    cases hf : w.dbFaults with
    | nil =>
      refine ⟨if t.id == id then { t with status := "Closed" } else t, ?_, ?_, ?_⟩
      · simp only [updateTradeStatus, hf]
        exact List.mem_map_of_mem _ ht
      · by_cases hid : t.id == id <;> simp [hid]
      · by_cases hid : t.id == id <;> simp [hid, hc]
    | cons b rest =>
      cases b
      · refine ⟨if t.id == id then { t with status := "Closed" } else t, ?_, ?_, ?_⟩
        · simp only [updateTradeStatus, hf]
          exact List.mem_map_of_mem _ ht
        · by_cases hid : t.id == id <;> simp [hid]
        · by_cases hid : t.id == id <;> simp [hid, hc]
      · exact ⟨t, by simp [updateTradeStatus, hf, ht], rfl, hc⟩
  · intro hD hNot
    constructor
    · have hmap := map_closed_noop hNot
      simp only [updateTradeStatus, hD]
      rw [hmap]
    · simp [updateTradeStatus, hD]

/-- Claim C8 amended witness: with one already-Closed row (id 1),
closing id 5 keeps the Closed row Closed and changes nothing. -/
theorem C8_markClosed_amended_witness :
    (∃ t', t' ∈ (updateTradeStatus 5 c8World).db.rows ∧ t'.id = 1 ∧ t'.status = "Closed") ∧
    (updateTradeStatus 5 c8World).db = c8World.db := by
  constructor
  · exact (C8_markClosed_amended c8World 5).1 ⟨1, "BTCUSD", "Buy", 1, 100, "Closed"⟩
      (by decide) rfl
  · exact ((C8_markClosed_amended c8World 5).2 rfl (by decide)).1

/-- Claim C9: a webhook whose topic is not "notification.create" is
answered 400 with no side effects: no order attempt, no fill, no
ledger change, no notifier message, no profit/loss computation. -/
theorem C9_unrecognized_topic_no_effects (q : Int) (pr : Except String (List Position))
    (req : WebhookReq) (w : World) (h : req.topic ≠ "notification.create") :
    (handleTradingViewWebhook q pr req w).1 = 400 ∧
    ((handleTradingViewWebhook q pr req w).2).db = w.db ∧
    ((handleTradingViewWebhook q pr req w).2).orderAttempts = w.orderAttempts ∧
    ((handleTradingViewWebhook q pr req w).2).fills = w.fills ∧
    ((handleTradingViewWebhook q pr req w).2).telegrams = w.telegrams ∧
    ((handleTradingViewWebhook q pr req w).2).pnls = w.pnls := by
  refine ⟨?_, ?_, ?_, ?_, ?_, ?_⟩ <;> simp [handleTradingViewWebhook, beq_iff_eq, h]

/-- Claim C9 witness: topic "foo" gets 400 and leaves the fresh world's
database untouched. -/
theorem C9_unrecognized_topic_no_effects_witness :
    (handleTradingViewWebhook 1 (Except.ok []) ⟨"foo", "BTCUSD", some "BUY"⟩ World.init).1
      = 400 ∧
    ((handleTradingViewWebhook 1 (Except.ok []) ⟨"foo", "BTCUSD", some "BUY"⟩ World.init).2).db
      = World.init.db := by
  have h := C9_unrecognized_topic_no_effects 1 (Except.ok []) ⟨"foo", "BTCUSD", some "BUY"⟩
    World.init (by decide)
  exact ⟨h.1, h.2.1⟩

/-- Claim C10 counterexample: the exchange throws a transport error on
the first attempt but would fill a second attempt, yet the handler
makes exactly one orderCreate attempt — no retry — and surfaces
HTTP 500 with nothing written to the ledger. -/
theorem C10_counterexample :
    (handleTradingViewWebhook 1 (Except.ok []) buyReq c10World).1 = 500 ∧
    ((handleTradingViewWebhook 1 (Except.ok []) buyReq c10World).2).orderAttempts.length = 1 ∧
    ((handleTradingViewWebhook 1 (Except.ok []) buyReq c10World).2).fills = [] ∧
    ((handleTradingViewWebhook 1 (Except.ok []) buyReq c10World).2).db.rows = [] := by
  decide

/-- Claim C10 (amended): an exchange failure on a BUY order is not
retried: exactly one attempt is made, the error is surfaced
immediately, the Telegram notifier is invoked, the webhook answers
500, and no ledger write occurs for the failed attempt. -/
theorem C10_no_retry_amended (q : Int) (pr : Except String (List Position))
    (req : WebhookReq) (w : World) (m : String) (rest : List ExchResp)
    (ht : req.topic = "notification.create") (hr : req.recommendation = some "BUY")
    (hE : w.exchangeResponses = ExchResp.fail m :: rest) :
    (handleTradingViewWebhook q pr req w).1 = 500 ∧
    ((handleTradingViewWebhook q pr req w).2).orderAttempts =
      w.orderAttempts ++ [⟨req.symbol, "Buy", "Market", q⟩] ∧
    ((handleTradingViewWebhook q pr req w).2).fills = w.fills ∧
    ((handleTradingViewWebhook q pr req w).2).db = w.db ∧
    ((handleTradingViewWebhook q pr req w).2).telegrams =
      w.telegrams ++ ["Error placing order: " ++ m] := by
  have hP := placeOrder_fail req.symbol "Buy" q m rest w hE
  refine ⟨?_, ?_, ?_, ?_, ?_⟩ <;> simp [handleTradingViewWebhook, ht, hr, hP]

/-- Claim C10 amended witness: the "timeout" failure world through the
amended theorem: 500 and exactly the notifier message appended. -/
theorem C10_no_retry_amended_witness :
    (handleTradingViewWebhook 1 (Except.ok []) buyReq c10World).1 = 500 ∧
    ((handleTradingViewWebhook 1 (Except.ok []) buyReq c10World).2).telegrams =
      ["Error placing order: timeout"] := by
  have h := C10_no_retry_amended 1 (Except.ok []) buyReq c10World "timeout"
    [ExchResp.fill 100] rfl rfl rfl
  exact ⟨h.1, by rw [h.2.2.2.2]; decide⟩

end BybitBot
